import Mathlib

/-
Verification of the Serena Core voice-session orchestrator.

The definitions below are a shallow embedding of the repository code:

* `app/services/deepgram_tts.py` — `clean_text_for_tts`,
  `create_short_tts_version`, `DeepgramTTSService.generate_audio`;
* `app/services/deepgram_stt.py` — `DeepgramSTTService._on_message`;
* `app/services/langgraph_store.py` — `LangGraphStoreService.add_memory`,
  `LangGraphStoreService.get_recent_memories`;
* `app/api/voice_websocket.py` — `interrupt_current_response`,
  `process_transcription`, and the control-frame handling of the main
  message loop of `voice_ws`.

Python strings are modelled as `List Char`; machine time as `Int`
milliseconds; asynchronous sub-results (the reasoning call, the audio
chunks pulled from the synthesis source, the points at which a concurrent
interruption is observed) are supplied as explicit oracle inputs of a
`TurnEnv` record, so that each per-turn run of the session is a pure
function from the session state and the oracle to the emitted trace.
-/

set_option maxRecDepth 4000

namespace Serena

/-! ### Python string primitives -/

/-- Python strings, modelled as lists of characters. -/
abbrev Str := List Char

/-- The Python whitespace class used by `str.strip` and by the regex
class `\s` for the ASCII range: space, tab, newline, carriage return,
vertical tab, form feed. -/
def isPySpace (c : Char) : Bool :=
  c == ' ' || c == '\t' || c == '\n' || c == '\r' || c == '\x0b' || c == '\x0c'

/-- Python `str.strip()`: drop whitespace from both ends. -/
def pyStrip (l : Str) : Str :=
  ((l.dropWhile isPySpace).reverse.dropWhile isPySpace).reverse

/-- Python `str.rstrip()`: drop whitespace from the right end. -/
def pyRstrip (l : Str) : Str :=
  (l.reverse.dropWhile isPySpace).reverse

/-! ### Global regex substitution

`re.sub` scans the subject left to right, replacing the leftmost
non-overlapping matches and resuming after each match.  Each concrete
pattern of `clean_text_for_tts` is embedded as a matcher
`Str → Option (Str × Nat)` returning, when the pattern matches at the
current position, the replacement text and the number of consumed
characters (always at least one).  The scanner is structural in a fuel
argument; fuel equal to the length of the subject is always enough since
every step consumes at least one character. -/

/-- One left-to-right substitution sweep, fuelled.  On a match the
scanner emits the replacement and resumes after the consumed characters
(`max k 1` guards the fuel argument; every matcher below consumes at
least one character, so the guard never changes the value). -/
def substFuel (m : Str → Option (Str × Nat)) : Nat → Str → Str
  | 0, l => l
  | _, [] => []
  | fuel + 1, c :: cs =>
    match m (c :: cs) with
    | some (r, k) => r ++ substFuel m fuel ((c :: cs).drop (max k 1))
    | none => c :: substFuel m fuel cs

/-- Global `re.sub` with a non-anchored pattern, via `substFuel`. -/
def subst (m : Str → Option (Str × Nat)) (l : Str) : Str :=
  substFuel m l.length l

/-- One sweep of a `re.MULTILINE` pattern anchored at `^`: the matcher is
only tried at the start of the subject and right after each newline. -/
def substMLFuel (m : Str → Option (Str × Nat)) : Nat → Bool → Str → Str
  | 0, _, l => l
  | _, _, [] => []
  | fuel + 1, atStart, c :: cs =>
    if atStart then
      match m (c :: cs) with
      | some (r, k) =>
        let kk := max k 1
        r ++ substMLFuel m fuel ((((c :: cs).take kk).getLast?) == some '\n')
          ((c :: cs).drop kk)
      | none => c :: substMLFuel m fuel (c == '\n') cs
    else c :: substMLFuel m fuel (c == '\n') cs

/-- Global `re.sub` with an anchored multiline pattern, via `substMLFuel`. -/
def substML (m : Str → Option (Str × Nat)) (l : Str) : Str :=
  substMLFuel m l.length true l

/-! ### The matchers of `clean_text_for_tts` (deepgram_tts.py lines 26 to 49)

For each pattern, the greedy or lazy repetition collapses to maximal runs
because backtracking inside a homogeneous character class cannot produce
the character demanded next; this is noted per matcher. -/

/-- Pattern `\*\*([^*]+)\*\*`, replacement the group: the group is the
maximal nonempty run of non-asterisks after the opening `**` (shorter
group candidates are followed by a non-asterisk, so backtracking cannot
help), and it must be followed by `**`. -/
def matchBold : Str → Option (Str × Nat)
  | [] => none
  | c1 :: r1 =>
    if c1 == '*' then
      match r1 with
      | [] => none
      | c2 :: r2 =>
        if c2 == '*' then
          let g := r2.takeWhile (fun c => !(c == '*'))
          let r3 := r2.dropWhile (fun c => !(c == '*'))
          if g.isEmpty then none
          else
            match r3 with
            | s1 :: s2 :: _ =>
              if s1 == '*' && s2 == '*' then some (g, 4 + g.length) else none
            | _ => none
        else none
    else none

/-- Pattern `\*([^*]+)\*`, replacement the group. -/
def matchItalic : Str → Option (Str × Nat)
  | [] => none
  | c1 :: r1 =>
    if c1 == '*' then
      let g := r1.takeWhile (fun c => !(c == '*'))
      let r2 := r1.dropWhile (fun c => !(c == '*'))
      if g.isEmpty then none
      else
        match r2 with
        | s1 :: _ => if s1 == '*' then some (g, 2 + g.length) else none
        | _ => none
    else none

/-- Pattern `__([^_]+)__`, replacement the group. -/
def matchUnderBold : Str → Option (Str × Nat)
  | [] => none
  | c1 :: r1 =>
    if c1 == '_' then
      match r1 with
      | [] => none
      | c2 :: r2 =>
        if c2 == '_' then
          let g := r2.takeWhile (fun c => !(c == '_'))
          let r3 := r2.dropWhile (fun c => !(c == '_'))
          if g.isEmpty then none
          else
            match r3 with
            | s1 :: s2 :: _ =>
              if s1 == '_' && s2 == '_' then some (g, 4 + g.length) else none
            | _ => none
        else none
    else none

/-- Pattern `_([^_]+)_`, replacement the group. -/
def matchUnderItalic : Str → Option (Str × Nat)
  | [] => none
  | c1 :: r1 =>
    if c1 == '_' then
      let g := r1.takeWhile (fun c => !(c == '_'))
      let r2 := r1.dropWhile (fun c => !(c == '_'))
      if g.isEmpty then none
      else
        match r2 with
        | s1 :: _ => if s1 == '_' then some (g, 2 + g.length) else none
        | _ => none
    else none

/-- Index of the earliest occurrence of three consecutive backticks. -/
def findTripleTick : Str → Option Nat
  | a :: b :: c :: rest =>
    if a == '\x60' && b == '\x60' && c == '\x60' then some 0
    else (findTripleTick (b :: c :: rest)).map (· + 1)
  | _ => none

/-- Pattern with three backticks, then a lazy `[\s\S]*?`, then three
backticks; replacement empty.  The lazy body reaches exactly to the
earliest following triple backtick. -/
def matchCodeBlock : Str → Option (Str × Nat)
  | c1 :: c2 :: c3 :: r3 =>
    if c1 == '\x60' && c2 == '\x60' && c3 == '\x60' then
      match findTripleTick r3 with
      | some i => some ([], 3 + i + 3)
      | none => none
    else none
  | _ => none

/-- Pattern of a backtick, a nonempty run without backticks, a backtick;
replacement the group (inline code). -/
def matchInlineCode : Str → Option (Str × Nat)
  | [] => none
  | c1 :: r1 =>
    if c1 == '\x60' then
      let g := r1.takeWhile (fun c => !(c == '\x60'))
      let r2 := r1.dropWhile (fun c => !(c == '\x60'))
      if g.isEmpty then none
      else
        match r2 with
        | s1 :: _ => if s1 == '\x60' then some (g, 2 + g.length) else none
        | _ => none
    else none

/-- Pattern `\[([^\]]+)\]\([^)]+\)`, replacement the link text. -/
def matchLink : Str → Option (Str × Nat)
  | [] => none
  | c1 :: r1 =>
    if c1 == '[' then
      let t := r1.takeWhile (fun c => !(c == ']'))
      let r2 := r1.dropWhile (fun c => !(c == ']'))
      if t.isEmpty then none
      else
        match r2 with
        | b :: r3 =>
          if b == ']' then
            match r3 with
            | p :: r4 =>
              if p == '(' then
                let u := r4.takeWhile (fun c => !(c == ')'))
                let r5 := r4.dropWhile (fun c => !(c == ')'))
                if u.isEmpty then none
                else
                  match r5 with
                  | q :: _ =>
                    if q == ')' then some (t, t.length + u.length + 4) else none
                  | _ => none
              else none
            | _ => none
          else none
        | _ => none
    else none

/-- Pattern `!\[([^\]]*)\]\([^)]+\)`, replacement the (possibly empty)
alt text.  It runs after the link pattern, which already consumed every
image with nonempty alt text. -/
def matchImage : Str → Option (Str × Nat)
  | [] => none
  | c0 :: r0 =>
    if c0 == '!' then
      match r0 with
      | [] => none
      | c1 :: r1 =>
        if c1 == '[' then
          let t := r1.takeWhile (fun c => !(c == ']'))
          let r2 := r1.dropWhile (fun c => !(c == ']'))
          match r2 with
          | b :: r3 =>
            if b == ']' then
              match r3 with
              | p :: r4 =>
                if p == '(' then
                  let u := r4.takeWhile (fun c => !(c == ')'))
                  let r5 := r4.dropWhile (fun c => !(c == ')'))
                  if u.isEmpty then none
                  else
                    match r5 with
                    | q :: _ =>
                      if q == ')' then some (t, t.length + u.length + 5) else none
                    | _ => none
                else none
              | _ => none
            else none
          | _ => none
        else none
    else none

/-- Multiline pattern of one to six hashes followed by whitespace,
replacement empty.  Seven or more hashes never match: backtracking the
hash counter always faces another hash where whitespace is required. -/
def matchHeader (l : Str) : Option (Str × Nat) :=
  let hs := l.takeWhile (fun c => c == '#')
  if hs.isEmpty || decide (hs.length > 6) then none
  else
    let rest := l.dropWhile (fun c => c == '#')
    let w := rest.takeWhile isPySpace
    if w.isEmpty then none else some ([], hs.length + w.length)

/-- Multiline pattern `^[\s]*[-*+]\s+`, replacement empty: optional
leading whitespace (taken maximally; a shorter prefix is followed by
whitespace, not by a bullet), a bullet, then whitespace. -/
def matchBullet (l : Str) : Option (Str × Nat) :=
  let w0 := l.takeWhile isPySpace
  let r1 := l.dropWhile isPySpace
  match r1 with
  | [] => none
  | b :: r2 =>
    if b == '-' || b == '*' || b == '+' then
      let w1 := r2.takeWhile isPySpace
      if w1.isEmpty then none else some ([], w0.length + 1 + w1.length)
    else none

/-- Multiline pattern `^\d+\.\s+`, replacement empty. -/
def matchOrdered (l : Str) : Option (Str × Nat) :=
  let d := l.takeWhile (fun c => c.isDigit)
  if d.isEmpty then none
  else
    match l.dropWhile (fun c => c.isDigit) with
    | [] => none
    | p :: r2 =>
      if p == '.' then
        let w := r2.takeWhile isPySpace
        if w.isEmpty then none else some ([], d.length + 1 + w.length)
      else none

/-- Pattern `\n{3,}`, replacement two newlines. -/
def matchNewlines (l : Str) : Option (Str × Nat) :=
  let ns := l.takeWhile (fun c => c == '\n')
  if decide (ns.length ≥ 3) then some (['\n', '\n'], ns.length) else none

/-- Embedding of `clean_text_for_tts` (deepgram_tts.py lines 12 to 52):
strip markdown formatting with twelve substitution passes in source
order, then strip surrounding whitespace.  The empty string is returned
unchanged (the falsy-input guard of line 22). -/
def cleanTextForTTS (text : Str) : Str :=
  if text.isEmpty then []
  else
    let c1 := subst matchBold text
    let c2 := subst matchItalic c1
    let c3 := subst matchUnderBold c2
    let c4 := subst matchUnderItalic c3
    let c5 := subst matchCodeBlock c4
    let c6 := subst matchInlineCode c5
    let c7 := subst matchLink c6
    let c8 := substML matchHeader c7
    let c9 := substML matchBullet c8
    let c10 := substML matchOrdered c9
    let c11 := subst matchImage c10
    let c12 := subst matchNewlines c11
    pyStrip c12

/-! ### Sentence splitting and truncation
(`create_short_tts_version`, deepgram_tts.py lines 55 to 109) -/

/-- The sentence-ending characters of the split pattern `([.!?]+[\s\n]+)`. -/
def isSentencePunct (c : Char) : Bool :=
  c == '.' || c == '!' || c == '?'

/-- Locate the leftmost separator match of `([.!?]+[\s\n]+)`: returns the
offset of the match, the length of the punctuation run and the length of
the whitespace run.  Fuelled; every recursive step drops at least one
character. -/
def findSentenceSepFuel : Nat → Str → Option (Nat × Nat × Nat)
  | 0, _ => none
  | _, [] => none
  | fuel + 1, c :: cs =>
    if isSentencePunct c then
      let p := (c :: cs).takeWhile isSentencePunct
      let rest := (c :: cs).dropWhile isSentencePunct
      let w := rest.takeWhile isPySpace
      if w.isEmpty then
        (findSentenceSepFuel fuel rest).map (fun t => (t.1 + p.length, t.2.1, t.2.2))
      else some (0, p.length, w.length)
    else (findSentenceSepFuel fuel cs).map (fun t => (t.1 + 1, t.2.1, t.2.2))

/-- Leftmost separator match of `([.!?]+[\s\n]+)`, via the fuelled scan. -/
def findSentenceSep (l : Str) : Option (Nat × Nat × Nat) :=
  findSentenceSepFuel l.length l

/-- Embedding of `re.split` with the capturing separator pattern: the result
alternates unmatched stretches and captured separators and always has odd
length.  Fuelled; each step consumes the separator, which is nonempty. -/
def splitSentencesFuel : Nat → Str → List Str
  | 0, l => [l]
  | fuel + 1, l =>
    match findSentenceSep l with
    | none => [l]
    | some (a, b, w) =>
      l.take a :: (l.drop a).take (b + w) :: splitSentencesFuel fuel (l.drop (a + b + w))

/-- Embedding of the sentence split of line 78, which applies `re.split`
with the capturing separator pattern. -/
def splitSentences (l : Str) : List Str :=
  splitSentencesFuel l.length l

/-- The recombination loop of lines 81 to 86: pair each stretch with its
following separator; `range(0, len(sentences) - 1, 2)` drops an unpaired
final element, and the guarded `else` branch of the source is
unreachable. -/
def combineSentences : List Str → List Str
  | a :: b :: rest => (a ++ b) :: combineSentences rest
  | _ => []

/-- The accumulation loop of lines 89 to 94: append each sentence while
the combined length stays within `max_chars`, stopping at the first
sentence that does not fit. -/
def accumulateSentences (maxChars : Nat) : Str → List Str → Str
  | acc, [] => acc
  | acc, s :: rest =>
    if acc.length + s.length ≤ maxChars then
      accumulateSentences maxChars (acc ++ s) rest
    else acc

/-- Python `str.rfind(' ')`: the index of the last space. -/
def rfindSpace : Str → Option Nat
  | [] => none
  | c :: cs =>
    match rfindSpace cs with
    | some i => some (i + 1)
    | none => if c == ' ' then some 0 else none

/-- The three-dot literal appended on the word-boundary path. -/
def ellipsis : Str := ['.', '.', '.']

/-- Lines 77 to 109 of `create_short_tts_version`, reached when the
cleaned text exceeds `max_chars`: take whole sentences while they fit;
if the result is empty or shorter than 100 characters, cut the first
`max_chars` characters at the last space when that keeps more than 80
percent of the cut (`last_space > max_chars * 0.8`; over the integers the
float comparison coincides with `5 * last_space > 4 * max_chars`, the
rounding error of `0.8` being far too small to cross an integer), and
append an ellipsis.  This helper embeds the word-boundary block of
lines 96 to 104. -/
def wordBoundaryCut (cleaned : Str) (maxChars : Nat) : Str :=
  let truncated := cleaned.take maxChars
  let lastSpace : Int := match rfindSpace truncated with
    | none => -1
    | some i => (i : Int)
  if 5 * lastSpace > 4 * (maxChars : Int) then
    truncated.take lastSpace.toNat ++ ellipsis
  else truncated ++ ellipsis

/-- Lines 77 to 109 of `create_short_tts_version` after the cleaning
pass: split into sentences, recombine, accumulate whole sentences within
the budget; fall back to `wordBoundaryCut` when the accumulated result is
empty or shorter than 100 characters, else right-strip it. -/
def shortFromCleaned (cleaned : Str) (maxChars maxSentences : Nat) : Str :=
  let sentences := splitSentences cleaned
  let combined := combineSentences sentences
  let result := accumulateSentences maxChars [] (combined.take maxSentences)
  if result.isEmpty || decide (result.length < 100) then
    wordBoundaryCut cleaned maxChars
  else pyRstrip result

/-- Embedding of `create_short_tts_version` (deepgram_tts.py lines 55 to 109). -/
def createShortTTSVersion (text : Str) (maxChars maxSentences : Nat) : Str :=
  if text.isEmpty then []
  else
    let cleaned := cleanTextForTTS text
    if cleaned.length ≤ maxChars then cleaned
    else shortFromCleaned cleaned maxChars maxSentences

/-! ### The session model (voice_websocket.py)

The websocket session of `voice_ws` is embedded as a state machine.  The
outbound control records and binary audio frames form one trace type;
Memory Store writes form a second trace.  Each awaited external result
(the reasoning call, the audio chunks pulled from the synthesis source,
and the checkpoints at which a concurrently raised interruption event or
task cancellation is observed) is an oracle input in `TurnEnv`. -/

/-- Outbound frames of the session (the `type` discriminants of the JSON
control records, plus binary audio chunks). -/
inductive OutMsg
  | ready
  | transcription (text : Str)
  | agentResponse (text : Str)
  | ttsStart
  | audioChunk (chunk : List Nat)
  | ttsEnd
  | ttsError (msg : Str)
  | interrupt
  | pong
  | fatalError (msg : Str)
deriving DecidableEq

/-- Writes performed against the Memory Store
(`langgraph_store.add_memory` calls with sender user or agent). -/
inductive MemOp
  | addUser (text : Str)
  | addAgent (text : Str)
deriving DecidableEq

/-- A handle to a spawned asyncio task; only its completion status is
observable to `interrupt_current_response`. -/
structure TaskRef where
  done : Bool
deriving DecidableEq

/-- Truthiness of `task and not task.done()`. -/
def taskActive : Option TaskRef → Bool
  | none => false
  | some t => !t.done

/-- The nonlocal state of one `voice_ws` session: the two task
references, the `interruption_event` flag, `last_interruption_time` in
milliseconds, and `message_count`.

Inside `process_transcription` the names `current_agent_task` and
`current_tts_task` are assigned without a `nonlocal` declaration, so
those assignments bind function-local variables; the session-level
references of this record are mutated only by
`interrupt_current_response` (which does declare them `nonlocal`). -/
structure SessionState where
  currentAgentTask : Option TaskRef
  currentTtsTask : Option TaskRef
  interruptionEvent : Bool
  lastInterruptionTime : Int
  messageCount : Nat
deriving DecidableEq

/-- The constant `INTERRUPTION_DEBOUNCE_MS` (voice_websocket.py line 33). -/
def debounceMs : Int := 500

/-- Embedding of `interrupt_current_response` (voice_websocket.py lines
36 to 84) as a transition on the session state at wall-clock time `now` (milliseconds),
returning the new state and the emitted control records.

If neither task is active, or the debounce window has not elapsed, the
call is a no-op.  Otherwise it records the interruption time, sets the
interruption event, cancels and awaits each active task (the await and
the swallowed `CancelledError` have no observable effect here), clears
the reference of each task that was active — a reference holding an
already completed task is left in place by the source — and sends a
single `interrupt` record. -/
def interruptCurrentResponse (s : SessionState) (now : Int) :
    SessionState × List OutMsg :=
  if !(taskActive s.currentAgentTask || taskActive s.currentTtsTask) then
    (s, [])
  else if now - s.lastInterruptionTime < debounceMs then
    (s, [])
  else
    let s1 := { s with lastInterruptionTime := now, interruptionEvent := true }
    let s2 := { s1 with
      currentAgentTask := if taskActive s1.currentAgentTask then none else s1.currentAgentTask }
    let s3 := { s2 with
      currentTtsTask := if taskActive s2.currentTtsTask then none else s2.currentTtsTask }
    (s3, [OutMsg.interrupt])

/-- Embedding of `DeepgramTTSService.generate_audio` (deepgram_tts.py
lines 120 to 157): the text is shortened by `create_short_tts_version` with the call
site parameters `max_chars=1500, max_sentences=5`; if the shortened text
is empty the generator yields nothing, otherwise it forwards the chunks
produced by the external synthesis source, skipping falsy (empty)
chunks. -/
def ttsYieldedChunks (text : Str) (sourceChunks : List (List Nat)) :
    List (List Nat) :=
  if createShortTTSVersion text 1500 5 = [] then []
  else sourceChunks.filter (fun c => !c.isEmpty)

/-- The fixed fallback reply of the reasoning-error path
(voice_websocket.py line 254). -/
def fallbackText : Str := "I\x27m sorry, I encountered an error. Please try again.".data

/-- The default used when the agent result lacks a `response` field
(voice_websocket.py line 172). -/
def defaultResponseText : Str :=
  "I\x27m sorry, I couldn\x27t process that request.".data

/-- What happens after the reasoning task has completed successfully;
each constructor names the checkpoint at which a concurrent interruption
or a synthesis failure is observed, if any.

* `stopAfterReason` — the interruption event is observed set at line 169,
  before the response is stored or sent;
* `stopBeforeTts` — observed set at line 194, after the response was
  stored and sent but before `tts_start`;
* `ttsInterrupted k` — the chunk loop observes the event (or the tts task
  is cancelled) after forwarding `k` chunks; no `tts_end` follows;
* `ttsFailed k msg` — the synthesis source raises after `k` chunks; a
  `tts_error` record is sent instead of `tts_end`;
* `stopAfterTts` — all chunks were sent, but the event is observed set at
  line 234, suppressing `tts_end`;
* `completed` — no interruption, normal `tts_end`. -/
inductive PostReason
  | stopAfterReason
  | stopBeforeTts
  | ttsInterrupted (k : Nat)
  | ttsFailed (k : Nat) (msg : Str)
  | stopAfterTts
  | completed
deriving DecidableEq

/-- Outcome of the per-turn reasoning stage:

* `reasonCancelled` — awaiting the agent task raises `CancelledError`
  (the task was cancelled by a concurrent interruption);
* `reasonRaised ff` — the stage raises an ordinary exception; the
  fallback path runs, and `ff = some k` means its synthesis raises after
  `k` chunks (the fallback loop has no interruption checks);
* `reasonOk resp post` — the agent returns, `resp` being its `response`
  field (`none` when absent). -/
inductive TurnRun
  | reasonCancelled
  | reasonRaised (fallbackFail : Option Nat)
  | reasonOk (resp : Option Str) (post : PostReason)
deriving DecidableEq

/-- Oracle inputs of one `process_transcription` call: the wall-clock
time seen by `interrupt_current_response`, the outcome of the stages, and
the chunk sequences the synthesis source would produce for the response
and for the fallback text. -/
structure TurnEnv where
  now : Int
  run : TurnRun
  sourceChunks : List (List Nat)
  fallbackChunks : List (List Nat)
deriving DecidableEq

/-- Embedding of `process_transcription` (voice_websocket.py lines 86 to
276) as a function from the session state, the dequeued transcript and the oracle
to the new state, the emitted frame trace and the Memory Store writes.

Control flow follows the source: blank input returns immediately; the
interruption coordinator runs first; the `transcription` record and the
user memory write happen next; line 118 then reads `interruption_event`
(which the just-finished interruption call may itself have set), clears
it, and aborts the turn when it was set.  On the reasoning path the
response is stored and sent before synthesis begins; interruption
checkpoints and the fallback path are driven by `TurnEnv.run`. -/
def processTranscription (s : SessionState) (userText : Str) (env : TurnEnv) :
    SessionState × List OutMsg × List MemOp :=
  if pyStrip userText = [] then (s, [], [])
  else
    let p1 := interruptCurrentResponse s env.now
    let s1 := p1.1
    let trBase := p1.2 ++ [OutMsg.transcription userText]
    let memU := [MemOp.addUser userText]
    let s2 := { s1 with messageCount := s1.messageCount + 1 }
    if s1.interruptionEvent then
      ({ s2 with interruptionEvent := false }, trBase, memU)
    else
      let s3 := { s2 with interruptionEvent := false }
      match env.run with
      | .reasonCancelled => ({ s3 with interruptionEvent := true }, trBase, memU)
      | .reasonRaised ff =>
        let chunks := ttsYieldedChunks fallbackText env.fallbackChunks
        let tail := match ff with
          | none => (chunks.map OutMsg.audioChunk) ++ [OutMsg.ttsEnd]
          | some k => (chunks.take k).map OutMsg.audioChunk
        (s3, trBase ++ [OutMsg.agentResponse fallbackText, OutMsg.ttsStart] ++ tail,
         memU)
      | .reasonOk resp post =>
        let respText := resp.getD defaultResponseText
        match post with
        | .stopAfterReason => ({ s3 with interruptionEvent := true }, trBase, memU)
        | .stopBeforeTts =>
          ({ s3 with interruptionEvent := true, messageCount := s3.messageCount + 1 },
           trBase ++ [OutMsg.agentResponse respText],
           memU ++ [MemOp.addAgent respText])
        | .ttsInterrupted k =>
          ({ s3 with interruptionEvent := true, messageCount := s3.messageCount + 1 },
           trBase ++ [OutMsg.agentResponse respText, OutMsg.ttsStart]
             ++ ((ttsYieldedChunks respText env.sourceChunks).take k).map OutMsg.audioChunk,
           memU ++ [MemOp.addAgent respText])
        | .ttsFailed k msg =>
          ({ s3 with messageCount := s3.messageCount + 1 },
           trBase ++ [OutMsg.agentResponse respText, OutMsg.ttsStart]
             ++ ((ttsYieldedChunks respText env.sourceChunks).take k).map OutMsg.audioChunk
             ++ [OutMsg.ttsError msg],
           memU ++ [MemOp.addAgent respText])
        | .stopAfterTts =>
          ({ s3 with interruptionEvent := true, messageCount := s3.messageCount + 1 },
           trBase ++ [OutMsg.agentResponse respText, OutMsg.ttsStart]
             ++ (ttsYieldedChunks respText env.sourceChunks).map OutMsg.audioChunk,
           memU ++ [MemOp.addAgent respText])
        | .completed =>
          ({ s3 with messageCount := s3.messageCount + 1 },
           trBase ++ [OutMsg.agentResponse respText, OutMsg.ttsStart]
             ++ (ttsYieldedChunks respText env.sourceChunks).map OutMsg.audioChunk
             ++ [OutMsg.ttsEnd],
           memU ++ [MemOp.addAgent respText])

/-! ### Inbound control frames (voice_websocket.py lines 346 to 394) -/

/-- Parsed JSON values, as returned by `json.loads`. -/
inductive Json
  | null
  | bool (b : Bool)
  | num (n : Int)
  | str (s : Str)
  | arr (elems : List Json)
  | obj (fields : List (Str × Json))

/-- Result of `json.loads` on the frame payload: either a decode error or
a JSON value. -/
inductive ParseResult
  | failed
  | ok (v : Json)

/-- Whether a JSON value is an object (carries the `.get` attribute in
the Python sense). -/
def Json.isObj : Json → Bool
  | .obj _ => true
  | _ => false

/-- What the message loop does after handling a frame. -/
inductive LoopAction
  /-- Proceed (`continue`) to the next frame. -/
  | continueLoop
  /-- Leave (`break`) the loop cooperatively (the `stop` record). -/
  | breakLoop
  /-- An uncaught exception reaches the generic handler at line 392; the
  loop exits and the session is torn down. -/
  | fatal
deriving DecidableEq

/-- Python `dict.get` on a JSON object built by `json.loads`; with
duplicate keys the last occurrence wins. -/
def jsonGet (fields : List (Str × Json)) (key : Str) : Option Json :=
  (fields.reverse.find? (fun p => p.1 == key)).map (·.2)

/-- Handling of one text frame by the main message loop (lines 347 to
365): the stripped payload and the `json.loads` outcome determine the
action.  A blank payload and a payload that fails to decode are skipped.
A decoded object is inspected via `data.get("type")`: `stop` breaks the
loop, `ping` answers `pong`, anything else is ignored.  A decoded
non-object value has no `.get` attribute, so the `AttributeError` escapes
the `json.JSONDecodeError` handler and reaches the generic exception
handler, ending the loop. -/
def handleTextFrame (stripped : Str) (parsed : ParseResult) :
    LoopAction × List OutMsg :=
  if stripped = [] then (LoopAction.continueLoop, [])
  else
    match parsed with
    | .failed => (LoopAction.continueLoop, [])
    | .ok v =>
      match v with
      | .obj fields =>
        match jsonGet fields "type".data with
        | some (.str t) =>
          if t = "stop".data then (LoopAction.breakLoop, [])
          else if t = "ping".data then (LoopAction.continueLoop, [OutMsg.pong])
          else (LoopAction.continueLoop, [])
        | _ => (LoopAction.continueLoop, [])
      | _ => (LoopAction.fatal, [])

/-! ### The transcription source filter (deepgram_stt.py lines 85 to 106) -/

/-- One alternative of a Deepgram results event. -/
structure SttAlternative where
  transcript : Str
deriving DecidableEq

/-- The channel object of a results event. -/
structure SttChannel where
  alternatives : List SttAlternative
deriving DecidableEq

/-- Events delivered to `DeepgramSTTService._on_message`.  The SDK
results type always carries `is_final` (the defensive `hasattr` fallback
of line 100 is therefore the identity), and the channel may be absent. -/
inductive SttEvent
  | speechStarted
  | results (channel : Option SttChannel) (isFinal : Bool)
  | otherEvent
deriving DecidableEq

/-- Embedding of `_on_message`: the transcript enqueued onto the transcription queue,
if any.  Speech-started and unrecognized events are dropped; a results
event is enqueued only when its channel is present, its alternatives list
is nonempty (both truthiness tests of line 97), the first transcript is a
nonempty string, and the event is final. -/
def onMessage : SttEvent → Option Str
  | .speechStarted => none
  | .otherEvent => none
  | .results ch isFinal =>
    match ch with
    | none => none
    | some c =>
      match c.alternatives with
      | [] => none
      | alt :: _ =>
        if alt.transcript = [] then none
        else if isFinal then some alt.transcript else none

/-! ### The memory store (langgraph_store.py) -/

/-- An exception raised by a store, embedding, or network operation
(every catchable `Exception`; task cancellation is not an error and is
outside this model). -/
structure PyErr where
  msg : Str
deriving DecidableEq

/-- The stored value dictionary of an item returned by `store.asearch`;
each field is absent when the dictionary lacks the key (`value.get`
defaults apply).  `none` at the item level covers a falsy `item.value`. -/
structure MemVal where
  text : Option Str
  sender : Option Str
  timestamp : Option Str
deriving DecidableEq

/-- An item returned by `store.asearch`. -/
structure StoreItem where
  key : Str
  value : Option MemVal
deriving DecidableEq

/-- A formatted memory as returned by `get_recent_memories`. -/
structure MemoryOut where
  key : Str
  text : Str
  sender : Str
  timestamp : Str
deriving DecidableEq

/-- Oracle for one store call: the outcomes of the awaited or called
internals (`embedding_service.create_embedding`, `store.aput`,
`store.asearch`) and the timestamp taken inside `add_memory`. -/
structure StoreEnv where
  embedResult : Except PyErr (List Int)
  putResult : Except PyErr Unit
  searchResult : Except PyErr (List StoreItem)
  timestamp : Str

/-- Lexicographic comparison of strings by character code, as Python
compares `str` keys in `list.sort`. -/
def strLe : Str → Str → Bool
  | [], _ => true
  | _ :: _, [] => false
  | a :: as_, b :: bs =>
    if a.val < b.val then true
    else if b.val < a.val then false
    else strLe as_ bs

/-- Stable insertion into a list sorted by `strLe` on the timestamp,
placing the new element after existing equal keys, as Python stable
ascending sort does. -/
def insertByTs (x : MemoryOut) : List MemoryOut → List MemoryOut
  | [] => [x]
  | y :: ys =>
    if strLe y.timestamp x.timestamp then y :: insertByTs x ys
    else x :: y :: ys

/-- Stable ascending sort by timestamp (`memories.sort(key=..., reverse=False)`). -/
def sortByTimestamp : List MemoryOut → List MemoryOut
  | [] => []
  | x :: xs => insertByTs x (sortByTimestamp xs)

/-- The `try` body of `add_memory` (langgraph_store.py lines 68 to 93):
create the embedding, build the key `f"{sender}_{timestamp}"`, put the
value, return the key.  Any step may raise. -/
def addMemoryBody (env : StoreEnv) (sender : Str) : Except PyErr Str := do
  let _ ← env.embedResult
  let key := sender ++ ['_'] ++ env.timestamp
  let _ ← env.putResult
  pure key

/-- Embedding of `add_memory` (langgraph_store.py lines 46 to 97): `None` when the
store is unavailable; otherwise the body runs under a `try` whose
`except Exception` handler returns `None`. -/
def addMemory (available : Bool) (env : StoreEnv) (sender : Str) :
    Except PyErr (Option Str) :=
  if !available then Except.ok none
  else
    match addMemoryBody env sender with
    | .ok key => Except.ok (some key)
    | .error _ => Except.ok none

/-- The `try` body of `get_recent_memories` (langgraph_store.py lines 166
to 188): search, keep items with a truthy value, format with `.get`
defaults, sort ascending by timestamp, take `limit`. -/
def getRecentBody (env : StoreEnv) (limit : Nat) :
    Except PyErr (List MemoryOut) := do
  let items ← env.searchResult
  let mems := items.filterMap (fun it =>
    it.value.map (fun v =>
      { key := it.key
        text := v.text.getD []
        sender := v.sender.getD "unknown".data
        timestamp := v.timestamp.getD [] }))
  pure ((sortByTimestamp mems).take limit)

/-- Embedding of `get_recent_memories` (langgraph_store.py lines 148 to 192): the
empty list when the store is unavailable; otherwise the body runs under a
`try` whose `except Exception` handler returns the empty list. -/
def getRecentMemories (available : Bool) (env : StoreEnv) (limit : Nat) :
    Except PyErr (List MemoryOut) :=
  if !available then Except.ok []
  else
    match getRecentBody env limit with
    | .ok l => Except.ok l
    | .error _ => Except.ok []

end Serena

namespace Serena

theorem interruptCR_inactive (s : SessionState) (now : Int)
    (h1 : taskActive s.currentAgentTask = false)
    (h2 : taskActive s.currentTtsTask = false) :
    interruptCurrentResponse s now = (s, []) := by
  simp [interruptCurrentResponse, h1, h2]

theorem interruptCR_debounced (s : SessionState) (now : Int)
    (h : now - s.lastInterruptionTime < debounceMs) :
    interruptCurrentResponse s now = (s, []) := by
  cases hA : (taskActive s.currentAgentTask || taskActive s.currentTtsTask) with
  | false => simp [interruptCurrentResponse, hA]
  | true => simp [interruptCurrentResponse, hA, h]

theorem interruptCR_fires (s : SessionState) (now : Int)
    (hact : (taskActive s.currentAgentTask || taskActive s.currentTtsTask) = true)
    (hdeb : ¬ now - s.lastInterruptionTime < debounceMs) :
    interruptCurrentResponse s now =
      ({ s with
          lastInterruptionTime := now
          interruptionEvent := true
          currentAgentTask :=
            if taskActive s.currentAgentTask then none else s.currentAgentTask
          currentTtsTask :=
            if taskActive s.currentTtsTask then none else s.currentTtsTask },
       [OutMsg.interrupt]) := by
  simp [interruptCurrentResponse, hact, hdeb]

theorem pt_completed (s : SessionState) (u : Str) (r : Option Str) (env : TurnEnv)
    (hu : ¬ pyStrip u = [])
    (h1 : taskActive s.currentAgentTask = false)
    (h2 : taskActive s.currentTtsTask = false)
    (h3 : s.interruptionEvent = false)
    (h4 : env.run = TurnRun.reasonOk r PostReason.completed) :
    processTranscription s u env =
      ({ s with interruptionEvent := false, messageCount := s.messageCount + 1 + 1 },
       [OutMsg.transcription u, OutMsg.agentResponse (r.getD defaultResponseText),
        OutMsg.ttsStart]
         ++ (ttsYieldedChunks (r.getD defaultResponseText) env.sourceChunks).map OutMsg.audioChunk
         ++ [OutMsg.ttsEnd],
       [MemOp.addUser u, MemOp.addAgent (r.getD defaultResponseText)]) := by
  simp [processTranscription, interruptCR_inactive s env.now h1 h2, hu, h3, h4]

theorem pt_ttsInterrupted (s : SessionState) (u resp : Str) (env : TurnEnv) (k : Nat)
    (hu : ¬ pyStrip u = [])
    (h1 : taskActive s.currentAgentTask = false)
    (h2 : taskActive s.currentTtsTask = false)
    (h3 : s.interruptionEvent = false)
    (h4 : env.run = TurnRun.reasonOk (some resp) (PostReason.ttsInterrupted k)) :
    processTranscription s u env =
      ({ s with interruptionEvent := true, messageCount := s.messageCount + 1 + 1 },
       [OutMsg.transcription u, OutMsg.agentResponse resp, OutMsg.ttsStart]
         ++ ((ttsYieldedChunks resp env.sourceChunks).take k).map OutMsg.audioChunk,
       [MemOp.addUser u, MemOp.addAgent resp]) := by
  simp [processTranscription, interruptCR_inactive s env.now h1 h2, hu, h3, h4]

theorem pt_raised (s : SessionState) (u : Str) (env : TurnEnv)
    (hu : ¬ pyStrip u = [])
    (h1 : taskActive s.currentAgentTask = false)
    (h2 : taskActive s.currentTtsTask = false)
    (h3 : s.interruptionEvent = false)
    (h4 : env.run = TurnRun.reasonRaised none) :
    processTranscription s u env =
      ({ s with interruptionEvent := false, messageCount := s.messageCount + 1 },
       [OutMsg.transcription u, OutMsg.agentResponse fallbackText, OutMsg.ttsStart]
         ++ (ttsYieldedChunks fallbackText env.fallbackChunks).map OutMsg.audioChunk
         ++ [OutMsg.ttsEnd],
       [MemOp.addUser u]) := by
  simp [processTranscription, interruptCR_inactive s env.now h1 h2, hu, h3, h4]

theorem pt_barge_in (s : SessionState) (u : Str) (env : TurnEnv)
    (hact : (taskActive s.currentAgentTask || taskActive s.currentTtsTask) = true)
    (hdeb : ¬ env.now - s.lastInterruptionTime < debounceMs)
    (hu : ¬ pyStrip u = []) :
    (processTranscription s u env).2.1 = [OutMsg.interrupt, OutMsg.transcription u]
      ∧ (processTranscription s u env).2.2 = [MemOp.addUser u] := by
  simp [processTranscription, interruptCR_fires s env.now hact hdeb, hu]


/-- Claim C8: Calling `interrupt_current_response` when neither a pipeline
task nor a synthesis task is active is a no-op: no notification is sent,
nothing is cancelled, and the session state (in particular
`last_interruption_time` and the interruption event) is unchanged. -/
theorem interrupt_noop_when_inactive (s : SessionState) (now : Int)
    (h1 : taskActive s.currentAgentTask = false)
    (h2 : taskActive s.currentTtsTask = false) :
    interruptCurrentResponse s now = (s, []) :=
  interruptCR_inactive s now h1 h2

/-- Witness for C8 at a concrete state holding one completed task. -/
theorem interrupt_noop_when_inactive_witness :
    interruptCurrentResponse ⟨some ⟨true⟩, none, false, 0, 3⟩ 1000
      = (⟨some ⟨true⟩, none, false, 0, 3⟩, []) :=
  interrupt_noop_when_inactive ⟨some ⟨true⟩, none, false, 0, 3⟩ 1000 rfl rfl

/-- Claim C1: When a final transcript is processed while a pipeline or
synthesis task is in flight and the debounce window has elapsed,
`interrupt_current_response` records the new interruption time, sets the
interruption event, cancels and awaits each active task, clears the
active-task references, and sends exactly one `interrupt` record; the
turn then emits its `transcription` record after that `interrupt`. -/
theorem barge_in_interrupt_protocol (s : SessionState) (u : Str) (env : TurnEnv)
    (hact : taskActive s.currentAgentTask = true ∨ taskActive s.currentTtsTask = true)
    (hdeb : env.now - s.lastInterruptionTime ≥ debounceMs)
    (hu : pyStrip u ≠ []) :
    (interruptCurrentResponse s env.now).1.lastInterruptionTime = env.now
    ∧ (interruptCurrentResponse s env.now).1.interruptionEvent = true
    ∧ taskActive (interruptCurrentResponse s env.now).1.currentAgentTask = false
    ∧ taskActive (interruptCurrentResponse s env.now).1.currentTtsTask = false
    ∧ (taskActive s.currentAgentTask = true →
        (interruptCurrentResponse s env.now).1.currentAgentTask = none)
    ∧ (taskActive s.currentTtsTask = true →
        (interruptCurrentResponse s env.now).1.currentTtsTask = none)
    ∧ (interruptCurrentResponse s env.now).2 = [OutMsg.interrupt]
    ∧ (processTranscription s u env).2.1 = [OutMsg.interrupt, OutMsg.transcription u] := by
  have hact' : (taskActive s.currentAgentTask || taskActive s.currentTtsTask) = true := by
    rcases hact with h | h <;> simp [h]
  have hdeb' : ¬ env.now - s.lastInterruptionTime < debounceMs := not_lt.mpr hdeb
  have hfire := interruptCR_fires s env.now hact' hdeb'
  refine ⟨?_, ?_, ?_, ?_, ?_, ?_, ?_, (pt_barge_in s u env hact' hdeb' hu).1⟩ <;>
    cases hA : taskActive s.currentAgentTask <;>
      cases hT : taskActive s.currentTtsTask <;>
        simp_all [hfire, taskActive]

/-- Witness for C1: a session with an active pipeline task, interrupted
600 ms after the previous interruption. -/
theorem barge_in_interrupt_protocol_witness :
    (interruptCurrentResponse ⟨some ⟨false⟩, none, false, 400, 0⟩ 1000).1.lastInterruptionTime = 1000
    ∧ (interruptCurrentResponse ⟨some ⟨false⟩, none, false, 400, 0⟩ 1000).1.interruptionEvent = true
    ∧ taskActive (interruptCurrentResponse ⟨some ⟨false⟩, none, false, 400, 0⟩ 1000).1.currentAgentTask = false
    ∧ taskActive (interruptCurrentResponse ⟨some ⟨false⟩, none, false, 400, 0⟩ 1000).1.currentTtsTask = false
    ∧ (taskActive (some (TaskRef.mk false) : Option TaskRef) = true →
        (interruptCurrentResponse ⟨some ⟨false⟩, none, false, 400, 0⟩ 1000).1.currentAgentTask = none)
    ∧ (taskActive (none : Option TaskRef) = true →
        (interruptCurrentResponse ⟨some ⟨false⟩, none, false, 400, 0⟩ 1000).1.currentTtsTask = none)
    ∧ (interruptCurrentResponse ⟨some ⟨false⟩, none, false, 400, 0⟩ 1000).2 = [OutMsg.interrupt]
    ∧ (processTranscription ⟨some ⟨false⟩, none, false, 400, 0⟩ "hi".data
        ⟨1000, TurnRun.reasonCancelled, [], []⟩).2.1
      = [OutMsg.interrupt, OutMsg.transcription "hi".data] :=
  barge_in_interrupt_protocol ⟨some ⟨false⟩, none, false, 400, 0⟩ "hi".data
    ⟨1000, TurnRun.reasonCancelled, [], []⟩ (Or.inl rfl) (by decide) (by decide)


/-- Claim C5: Debounce of interruptions.  First, within the 500 ms window
`interrupt_current_response` returns without mutating any state and
without cancelling or notifying.  Second, of two interruption-eligible
calls less than 500 ms apart (with arbitrary task references re-registered
in between) only the first produces an `interrupt` record, and the
recorded interruption time stays that of the first.  Third, two eligible
calls at least 500 ms apart each produce their own `interrupt` record. -/
theorem interruption_debounce :
    (∀ (s : SessionState) (now : Int),
      now - s.lastInterruptionTime < debounceMs →
      interruptCurrentResponse s now = (s, []))
    ∧ (∀ (s : SessionState) (t1 t2 : Int) (a b : Option TaskRef),
        (taskActive s.currentAgentTask || taskActive s.currentTtsTask) = true →
        t1 - s.lastInterruptionTime ≥ debounceMs →
        t2 - t1 < debounceMs →
        (interruptCurrentResponse s t1).2
            ++ (interruptCurrentResponse
                { (interruptCurrentResponse s t1).1 with
                    currentAgentTask := a, currentTtsTask := b } t2).2
          = [OutMsg.interrupt]
        ∧ (interruptCurrentResponse
            { (interruptCurrentResponse s t1).1 with
                currentAgentTask := a, currentTtsTask := b } t2).1.lastInterruptionTime = t1)
    ∧ (∀ (s : SessionState) (t1 t2 : Int) (a b : Option TaskRef),
        (taskActive s.currentAgentTask || taskActive s.currentTtsTask) = true →
        t1 - s.lastInterruptionTime ≥ debounceMs →
        t2 - t1 ≥ debounceMs →
        (taskActive a || taskActive b) = true →
        (interruptCurrentResponse s t1).2 = [OutMsg.interrupt]
        ∧ (interruptCurrentResponse
            { (interruptCurrentResponse s t1).1 with
                currentAgentTask := a, currentTtsTask := b } t2).2 = [OutMsg.interrupt]) := by
  refine ⟨fun s now h => interruptCR_debounced s now h, ?_, ?_⟩
  · intro s t1 t2 a b hact hdeb1 hdeb2
    have hfire := interruptCR_fires s t1 hact (not_lt.mpr hdeb1)
    have hs2last :
        ({ (interruptCurrentResponse s t1).1 with
            currentAgentTask := a, currentTtsTask := b } : SessionState).lastInterruptionTime
          = t1 := by simp [hfire]
    have hdeb := interruptCR_debounced
      { (interruptCurrentResponse s t1).1 with currentAgentTask := a, currentTtsTask := b }
      t2 (by rw [hs2last]; exact hdeb2)
    rw [hdeb]
    simp [hfire, hs2last]
  · intro s t1 t2 a b hact hdeb1 hdeb2 hact2
    have hfire := interruptCR_fires s t1 hact (not_lt.mpr hdeb1)
    have hs2last :
        ({ (interruptCurrentResponse s t1).1 with
            currentAgentTask := a, currentTtsTask := b } : SessionState).lastInterruptionTime
          = t1 := by simp [hfire]
    have hfire2 := interruptCR_fires
      { (interruptCurrentResponse s t1).1 with currentAgentTask := a, currentTtsTask := b }
      t2 (by simpa using hact2) (by rw [hs2last]; exact not_lt.mpr hdeb2)
    rw [hfire2]
    simp [hfire]

/-- Witness for C5: two eligible events 100 ms apart yield one interrupt;
600 ms apart yield two. -/
theorem interruption_debounce_witness :
    ((interruptCurrentResponse ⟨some ⟨false⟩, none, false, 0, 0⟩ 1000).2
        ++ (interruptCurrentResponse
            { (interruptCurrentResponse ⟨some ⟨false⟩, none, false, 0, 0⟩ 1000).1 with
                currentAgentTask := some ⟨false⟩, currentTtsTask := none } 1100).2
      = [OutMsg.interrupt])
    ∧ ((interruptCurrentResponse
          { (interruptCurrentResponse ⟨some ⟨false⟩, none, false, 0, 0⟩ 1000).1 with
              currentAgentTask := some ⟨false⟩, currentTtsTask := none } 1600).2
        = [OutMsg.interrupt]) :=
  ⟨(interruption_debounce.2.1 ⟨some ⟨false⟩, none, false, 0, 0⟩ 1000 1100
      (some ⟨false⟩) none rfl (by decide) (by decide)).1,
   (interruption_debounce.2.2 ⟨some ⟨false⟩, none, false, 0, 0⟩ 1000 1600
      (some ⟨false⟩) none rfl (by decide) (by decide) rfl).2⟩

/-- Claim C4: For a completed, non-interrupted turn the emitted sequence is
exactly `transcription`, `agent_response`, `tts_start`, zero or more
audio chunks, `tts_end`. -/
theorem completed_turn_ordering (s : SessionState) (u : Str) (r : Option Str)
    (env : TurnEnv)
    (hu : pyStrip u ≠ [])
    (h1 : taskActive s.currentAgentTask = false)
    (h2 : taskActive s.currentTtsTask = false)
    (h3 : s.interruptionEvent = false)
    (h4 : env.run = TurnRun.reasonOk r PostReason.completed) :
    (processTranscription s u env).2.1 =
      [OutMsg.transcription u, OutMsg.agentResponse (r.getD defaultResponseText),
       OutMsg.ttsStart]
        ++ (ttsYieldedChunks (r.getD defaultResponseText) env.sourceChunks).map
            OutMsg.audioChunk
        ++ [OutMsg.ttsEnd] := by
  rw [pt_completed s u r env hu h1 h2 h3 h4]

/-- Witness for C4 at a concrete quiet session and successful turn. -/
theorem completed_turn_ordering_witness :
    (processTranscription ⟨none, none, false, 0, 0⟩ "hi".data
        ⟨1000, TurnRun.reasonOk (some "Fine.".data) PostReason.completed, [[1], [], [2]], []⟩).2.1
      = [OutMsg.transcription "hi".data, OutMsg.agentResponse "Fine.".data,
         OutMsg.ttsStart]
          ++ (ttsYieldedChunks "Fine.".data [[1], [], [2]]).map OutMsg.audioChunk
          ++ [OutMsg.ttsEnd] :=
  completed_turn_ordering ⟨none, none, false, 0, 0⟩ "hi".data (some "Fine.".data)
    ⟨1000, TurnRun.reasonOk (some "Fine.".data) PostReason.completed, [[1], [], [2]], []⟩
    (by decide) rfl rfl rfl rfl


/-- Claim C2, amended: For a turn interrupted during the synthesis stage,
the emitted sequence of that turn ends with zero or more audio chunks and
contains neither `tts_end` nor an `interrupt`; the interrupting call then
sends exactly one `interrupt`; and the Memory Store has already received
the entry for the agent response, persisted when reasoning completed,
before synthesis began. -/
theorem synth_interrupt_sequence (sA : SessionState) (uA respA : Str)
    (envA : TurnEnv) (k : Nat) (sB : SessionState) (now2 : Int)
    (huA : pyStrip uA ≠ [])
    (h1 : taskActive sA.currentAgentTask = false)
    (h2 : taskActive sA.currentTtsTask = false)
    (h3 : sA.interruptionEvent = false)
    (h4 : envA.run = TurnRun.reasonOk (some respA) (PostReason.ttsInterrupted k))
    (hact : (taskActive sB.currentAgentTask || taskActive sB.currentTtsTask) = true)
    (hdeb : now2 - sB.lastInterruptionTime ≥ debounceMs) :
    (processTranscription sA uA envA).2.1 =
        [OutMsg.transcription uA, OutMsg.agentResponse respA, OutMsg.ttsStart]
          ++ ((ttsYieldedChunks respA envA.sourceChunks).take k).map OutMsg.audioChunk
    ∧ OutMsg.ttsEnd ∉ (processTranscription sA uA envA).2.1
    ∧ OutMsg.interrupt ∉ (processTranscription sA uA envA).2.1
    ∧ (interruptCurrentResponse sB now2).2 = [OutMsg.interrupt]
    ∧ (processTranscription sA uA envA).2.2 = [MemOp.addUser uA, MemOp.addAgent respA] := by
  have hpt := pt_ttsInterrupted sA uA respA envA k huA h1 h2 h3 h4
  have hfire := interruptCR_fires sB now2 hact (not_lt.mpr hdeb)
  refine ⟨by rw [hpt], ?_, ?_, by rw [hfire], by rw [hpt]⟩ <;>
    · rw [hpt]
      simp [← List.map_take, List.mem_map]

/-- Witness for C2 (amended) at a concrete interrupted turn. -/
theorem synth_interrupt_sequence_witness :
    (processTranscription ⟨none, none, false, 0, 0⟩ "hi".data
        ⟨1000, TurnRun.reasonOk (some "All good.".data) (PostReason.ttsInterrupted 1),
         [[1], [2]], []⟩).2.1 =
        [OutMsg.transcription "hi".data, OutMsg.agentResponse "All good.".data,
         OutMsg.ttsStart]
          ++ ((ttsYieldedChunks "All good.".data [[1], [2]]).take 1).map OutMsg.audioChunk
    ∧ OutMsg.ttsEnd ∉ (processTranscription ⟨none, none, false, 0, 0⟩ "hi".data
        ⟨1000, TurnRun.reasonOk (some "All good.".data) (PostReason.ttsInterrupted 1),
         [[1], [2]], []⟩).2.1
    ∧ OutMsg.interrupt ∉ (processTranscription ⟨none, none, false, 0, 0⟩ "hi".data
        ⟨1000, TurnRun.reasonOk (some "All good.".data) (PostReason.ttsInterrupted 1),
         [[1], [2]], []⟩).2.1
    ∧ (interruptCurrentResponse ⟨none, some ⟨false⟩, false, 0, 0⟩ 2000).2 = [OutMsg.interrupt]
    ∧ (processTranscription ⟨none, none, false, 0, 0⟩ "hi".data
        ⟨1000, TurnRun.reasonOk (some "All good.".data) (PostReason.ttsInterrupted 1),
         [[1], [2]], []⟩).2.2
      = [MemOp.addUser "hi".data, MemOp.addAgent "All good.".data] :=
  synth_interrupt_sequence ⟨none, none, false, 0, 0⟩ "hi".data "All good.".data
    ⟨1000, TurnRun.reasonOk (some "All good.".data) (PostReason.ttsInterrupted 1),
     [[1], [2]], []⟩ 1 ⟨none, some ⟨false⟩, false, 0, 0⟩ 2000
    (by decide) rfl rfl rfl rfl rfl (by decide)

/-- Counterexample to C2 as stated: a turn interrupted during synthesis
after one audio chunk whose Memory Store trace nonetheless contains the
entry for the agent response (it was persisted at reasoning completion,
before synthesis began). -/
theorem synth_interrupt_memory_cex :
    (processTranscription ⟨none, none, false, 0, 0⟩ "ok go".data
        ⟨1000, TurnRun.reasonOk (some "Sure thing.".data) (PostReason.ttsInterrupted 1),
         [[3], [4]], []⟩).2.1 =
        [OutMsg.transcription "ok go".data, OutMsg.agentResponse "Sure thing.".data,
         OutMsg.ttsStart, OutMsg.audioChunk [3]]
    ∧ MemOp.addAgent "Sure thing.".data
        ∈ (processTranscription ⟨none, none, false, 0, 0⟩ "ok go".data
            ⟨1000, TurnRun.reasonOk (some "Sure thing.".data) (PostReason.ttsInterrupted 1),
             [[3], [4]], []⟩).2.2 := by
  constructor
  · decide
  · decide


/-- Claim C3, amended: When the reasoning stage raises an error, the turn
substitutes the fixed fallback reply, sends it as an `agent_response`
record, and performs a normal synthesis bracket for it; the turn returns
normally, so the error never terminates the session.  The fallback is
not persisted: the only Memory Store write of the turn is the user
utterance. -/
theorem fallback_reply_behavior (s : SessionState) (u : Str) (env : TurnEnv)
    (hu : pyStrip u ≠ [])
    (h1 : taskActive s.currentAgentTask = false)
    (h2 : taskActive s.currentTtsTask = false)
    (h3 : s.interruptionEvent = false)
    (h4 : env.run = TurnRun.reasonRaised none) :
    (processTranscription s u env).2.1 =
        [OutMsg.transcription u, OutMsg.agentResponse fallbackText, OutMsg.ttsStart]
          ++ (ttsYieldedChunks fallbackText env.fallbackChunks).map OutMsg.audioChunk
          ++ [OutMsg.ttsEnd]
    ∧ (processTranscription s u env).2.2 = [MemOp.addUser u] := by
  have hpt := pt_raised s u env hu h1 h2 h3 h4
  exact ⟨by rw [hpt], by rw [hpt]⟩

/-- Witness for C3 (amended) at a concrete failing turn. -/
theorem fallback_reply_behavior_witness :
    (processTranscription ⟨none, none, false, 0, 0⟩ "hey".data
        ⟨1000, TurnRun.reasonRaised none, [], [[7]]⟩).2.1 =
        [OutMsg.transcription "hey".data, OutMsg.agentResponse fallbackText,
         OutMsg.ttsStart]
          ++ (ttsYieldedChunks fallbackText [[7]]).map OutMsg.audioChunk
          ++ [OutMsg.ttsEnd]
    ∧ (processTranscription ⟨none, none, false, 0, 0⟩ "hey".data
        ⟨1000, TurnRun.reasonRaised none, [], [[7]]⟩).2.2 = [MemOp.addUser "hey".data] :=
  fallback_reply_behavior ⟨none, none, false, 0, 0⟩ "hey".data
    ⟨1000, TurnRun.reasonRaised none, [], [[7]]⟩ (by decide) rfl rfl rfl rfl

/-- Counterexample to C3 as stated: a turn whose reasoning stage raises,
whose trace shows the fallback `agent_response` and its full synthesis
bracket, but whose Memory Store trace contains no entry for the fallback
reply — the fallback path of the source has no `add_memory` call. -/
theorem fallback_not_persisted_cex :
    (processTranscription ⟨none, none, false, 0, 0⟩ "hi".data
        ⟨1000, TurnRun.reasonRaised none, [], [[7]]⟩).2.1 =
        [OutMsg.transcription "hi".data, OutMsg.agentResponse fallbackText,
         OutMsg.ttsStart, OutMsg.audioChunk [7], OutMsg.ttsEnd]
    ∧ (processTranscription ⟨none, none, false, 0, 0⟩ "hi".data
        ⟨1000, TurnRun.reasonRaised none, [], [[7]]⟩).2.2 = [MemOp.addUser "hi".data]
    ∧ MemOp.addAgent fallbackText
        ∉ (processTranscription ⟨none, none, false, 0, 0⟩ "hi".data
            ⟨1000, TurnRun.reasonRaised none, [], [[7]]⟩).2.2 := by
  refine ⟨by decide, by decide, by decide⟩

/-- Claim C6, amended: A text frame whose payload fails JSON decoding (or
is blank) is skipped: the loop continues and nothing is emitted.  A
decoded JSON object never ends the loop through the generic exception
handler.  But a payload decoding to a non-object JSON value raises an
uncaught `AttributeError`, which exits the message loop and tears the
session down. -/
theorem malformed_frame_handling :
    (∀ s : Str, handleTextFrame s ParseResult.failed = (LoopAction.continueLoop, []))
    ∧ (∀ (s : Str) (fields : List (Str × Json)),
        (handleTextFrame s (ParseResult.ok (Json.obj fields))).1 ≠ LoopAction.fatal)
    ∧ (∀ (s : Str) (v : Json), s ≠ [] → Json.isObj v = false →
        handleTextFrame s (ParseResult.ok v) = (LoopAction.fatal, [])) := by
  refine ⟨?_, ?_, ?_⟩
  · intro s
    by_cases hs : s = [] <;> simp [handleTextFrame, hs]
  · intro s fields
    by_cases hs : s = []
    · simp [handleTextFrame, hs]
    · simp only [handleTextFrame, hs, if_false]
      rcases hget : jsonGet fields "type".data with _ | v
      · simp [hget]
      · cases v <;> simp [hget]
        split
        · simp
        · split <;> simp
  · intro s v hs hv
    cases v <;> simp_all [handleTextFrame, Json.isObj]

/-- Witness for C6 (amended): a garbled frame is skipped, an object frame
is not fatal, a bare string frame is fatal. -/
theorem malformed_frame_handling_witness :
    handleTextFrame "\x7boops".data ParseResult.failed = (LoopAction.continueLoop, [])
    ∧ (handleTextFrame "\x7b\x7d".data (ParseResult.ok (Json.obj []))).1 ≠ LoopAction.fatal
    ∧ handleTextFrame ".".data (ParseResult.ok (Json.str "x".data))
        = (LoopAction.fatal, []) :=
  ⟨malformed_frame_handling.1 _,
   malformed_frame_handling.2.1 _ [],
   malformed_frame_handling.2.2 _ (Json.str "x".data) (by decide) rfl⟩

/-- Counterexample to C6 as stated: the text frame `42` is not a
well-formed control record, yet it is not ignored — handling it exits the
message loop (the decoded integer has no `.get`, the `AttributeError` is
not caught by the `json.JSONDecodeError` handler, and the generic
handler ends the loop), terminating the session. -/
theorem malformed_frame_fatal_cex :
    handleTextFrame "42".data (ParseResult.ok (Json.num 42))
      = (LoopAction.fatal, []) := rfl


/-- Claim C9: The transcription-source message handler enqueues only
nonempty final transcripts: everything enqueued is a nonempty transcript
of a final results event; a non-final results event is never enqueued;
an event whose first alternative is the empty transcript is never
enqueued. -/
theorem stt_enqueue_filter :
    (∀ (e : SttEvent) (t : Str), onMessage e = some t →
      t ≠ [] ∧ ∃ c : SttChannel, e = SttEvent.results (some c) true)
    ∧ (∀ ch : Option SttChannel, onMessage (SttEvent.results ch false) = none)
    ∧ (∀ (rest : List SttAlternative) (b : Bool),
        onMessage (SttEvent.results (some ⟨⟨[]⟩ :: rest⟩) b) = none) := by
  refine ⟨?_, ?_, ?_⟩
  · intro e t h
    cases e with
    | speechStarted => cases h
    | otherEvent => cases h
    | results ch fin =>
      rcases ch with _ | c
      · cases h
      · rcases halts : c.alternatives with _ | ⟨alt, rest⟩ <;>
          simp only [onMessage, halts] at h
        · cases h
        · by_cases htr : alt.transcript = []
          · simp [htr] at h
          · cases fin
            · simp [htr] at h
            · simp [htr] at h
              exact ⟨h ▸ htr, c, rfl⟩
  · intro ch
    rcases ch with _ | c
    · rfl
    · rcases halts : c.alternatives with _ | ⟨alt, rest⟩ <;>
        simp [onMessage, halts]
  · intro rest b
    cases b <;> rfl

/-- Witness for C9 at a concrete final results event. -/
theorem stt_enqueue_filter_witness :
    "hi".data ≠ []
    ∧ ∃ c : SttChannel,
        SttEvent.results (some ⟨[⟨"hi".data⟩]⟩) true = SttEvent.results (some c) true :=
  stt_enqueue_filter.1 (SttEvent.results (some ⟨[⟨"hi".data⟩]⟩) true) "hi".data rfl

/-- Claim C10: `add_memory` and `get_recent_memories` never let an
exception reach the caller: for every oracle outcome the result is a
normal return; with the store unavailable, or when the body raises,
`add_memory` returns `None` and `get_recent_memories` returns the empty
list. -/
theorem store_error_containment :
    (∀ (a : Bool) (env : StoreEnv) (snd : Str), ∃ v, addMemory a env snd = Except.ok v)
    ∧ (∀ (env : StoreEnv) (snd : Str), addMemory false env snd = Except.ok none)
    ∧ (∀ (env : StoreEnv) (snd : Str) (e : PyErr),
        addMemoryBody env snd = Except.error e →
        addMemory true env snd = Except.ok none)
    ∧ (∀ (a : Bool) (env : StoreEnv) (lim : Nat),
        ∃ l, getRecentMemories a env lim = Except.ok l)
    ∧ (∀ (env : StoreEnv) (lim : Nat), getRecentMemories false env lim = Except.ok [])
    ∧ (∀ (env : StoreEnv) (lim : Nat) (e : PyErr),
        getRecentBody env lim = Except.error e →
        getRecentMemories true env lim = Except.ok []) := by
  refine ⟨?_, fun env snd => rfl, ?_, ?_, fun env lim => rfl, ?_⟩
  · intro a env snd
    cases a
    · exact ⟨none, rfl⟩
    · cases h : addMemoryBody env snd with
      | ok key => exact ⟨some key, by simp [addMemory, h]⟩
      | error e => exact ⟨none, by simp [addMemory, h]⟩
  · intro env snd e h
    simp [addMemory, h]
  · intro a env lim
    cases a
    · exact ⟨[], rfl⟩
    · cases h : getRecentBody env lim with
      | ok l => exact ⟨l, by simp [getRecentMemories, h]⟩
      | error e => exact ⟨[], by simp [getRecentMemories, h]⟩
  · intro env lim e h
    simp [getRecentMemories, h]

/-- Witness for C10: a reachable store whose put and search calls fail. -/
theorem store_error_containment_witness :
    addMemory true ⟨Except.ok [], Except.error ⟨"down".data⟩, Except.ok [], "t0".data⟩
        "user".data = Except.ok none
    ∧ getRecentMemories true
        ⟨Except.ok [], Except.ok (), Except.error ⟨"down".data⟩, "t0".data⟩ 20
      = Except.ok [] :=
  ⟨store_error_containment.2.2.1 _ _ ⟨"down".data⟩ rfl,
   store_error_containment.2.2.2.2.2 _ 20 ⟨"down".data⟩ rfl⟩


/-! ### Replicated plain text is a fixed point of the cleaning passes -/

theorem matchBold_a (xs : Str) : matchBold ('a' :: xs) = none := rfl
theorem matchItalic_a (xs : Str) : matchItalic ('a' :: xs) = none := rfl
theorem matchUnderBold_a (xs : Str) : matchUnderBold ('a' :: xs) = none := rfl
theorem matchUnderItalic_a (xs : Str) : matchUnderItalic ('a' :: xs) = none := rfl
theorem matchCodeBlock_a (xs : Str) : matchCodeBlock ('a' :: xs) = none := by
  cases xs with
  | nil => rfl
  | cons b bs =>
    cases bs with
    | nil => rfl
    | cons c cs => simp [matchCodeBlock]
theorem matchInlineCode_a (xs : Str) : matchInlineCode ('a' :: xs) = none := rfl
theorem matchLink_a (xs : Str) : matchLink ('a' :: xs) = none := rfl
theorem matchImage_a (xs : Str) : matchImage ('a' :: xs) = none := rfl
theorem matchHeader_a (xs : Str) : matchHeader ('a' :: xs) = none := rfl
theorem matchBullet_a (xs : Str) : matchBullet ('a' :: xs) = none := rfl
theorem matchOrdered_a (xs : Str) : matchOrdered ('a' :: xs) = none := rfl
theorem matchNewlines_a (xs : Str) : matchNewlines ('a' :: xs) = none := rfl

theorem substFuel_zero (m : Str → Option (Str × Nat)) (l : Str) :
    substFuel m 0 l = l := by
  cases l <;> rfl

theorem substMLFuel_zero (m : Str → Option (Str × Nat)) (b : Bool) (l : Str) :
    substMLFuel m 0 b l = l := by
  cases l <;> rfl

theorem substFuel_fix (m : Str → Option (Str × Nat)) (c : Char)
    (hm : ∀ xs, m (c :: xs) = none) :
    ∀ (fuel n : Nat), substFuel m fuel (List.replicate n c) = List.replicate n c := by
  intro fuel
  induction fuel with
  | zero => intro n; exact substFuel_zero m _
  | succ f ih =>
    intro n
    cases n with
    | zero => rfl
    | succ k =>
      rw [List.replicate_succ]
      simp only [substFuel, hm]
      rw [ih k]

theorem substMLFuel_fix (m : Str → Option (Str × Nat)) (c : Char)
    (hm : ∀ xs, m (c :: xs) = none) :
    ∀ (fuel : Nat) (b : Bool) (n : Nat),
      substMLFuel m fuel b (List.replicate n c) = List.replicate n c := by
  intro fuel
  induction fuel with
  | zero => intro b n; exact substMLFuel_zero m b _
  | succ f ih =>
    intro b n
    cases n with
    | zero => cases b <;> rfl
    | succ k =>
      rw [List.replicate_succ]
      cases b with
      | false =>
        simp only [substMLFuel, Bool.false_eq_true, if_false]
        rw [ih]
      | true =>
        simp only [substMLFuel, hm, if_true]
        rw [ih]

theorem dropWhile_replicate_neg (p : Char → Bool) (c : Char) (h : p c = false) :
    ∀ n, List.dropWhile p (List.replicate n c) = List.replicate n c := by
  intro n
  cases n with
  | zero => rfl
  | succ k => rw [List.replicate_succ, List.dropWhile_cons_of_neg (by simp [h])]

theorem pyStrip_replicate_a (n : Nat) :
    pyStrip (List.replicate n 'a') = List.replicate n 'a' := by
  unfold pyStrip
  rw [dropWhile_replicate_neg isPySpace 'a' rfl, List.reverse_replicate,
    dropWhile_replicate_neg isPySpace 'a' rfl, List.reverse_replicate]

theorem clean_replicate_a (n : Nat) :
    cleanTextForTTS (List.replicate n 'a') = List.replicate n 'a' := by
  cases n with
  | zero => rfl
  | succ k =>
    unfold cleanTextForTTS
    rw [if_neg (by simp)]
    simp only [subst, substML]
    rw [substFuel_fix _ _ matchBold_a, substFuel_fix _ _ matchItalic_a,
      substFuel_fix _ _ matchUnderBold_a, substFuel_fix _ _ matchUnderItalic_a,
      substFuel_fix _ _ matchCodeBlock_a, substFuel_fix _ _ matchInlineCode_a,
      substFuel_fix _ _ matchLink_a, substMLFuel_fix _ _ matchHeader_a,
      substMLFuel_fix _ _ matchBullet_a, substMLFuel_fix _ _ matchOrdered_a,
      substFuel_fix _ _ matchImage_a, substFuel_fix _ _ matchNewlines_a,
      pyStrip_replicate_a]


theorem findSentenceSepFuel_zero (l : Str) : findSentenceSepFuel 0 l = none := by
  cases l <;> rfl

theorem findSentenceSepFuel_replicate_a :
    ∀ (fuel n : Nat), findSentenceSepFuel fuel (List.replicate n 'a') = none := by
  intro fuel
  induction fuel with
  | zero => intro n; exact findSentenceSepFuel_zero _
  | succ f ih =>
    intro n
    cases n with
    | zero => rfl
    | succ k =>
      rw [List.replicate_succ]
      simp only [findSentenceSepFuel, show isSentencePunct 'a' = false from rfl,
        Bool.false_eq_true, if_false]
      rw [ih k]
      rfl

theorem rfindSpace_replicate_a :
    ∀ n : Nat, rfindSpace (List.replicate n 'a') = none := by
  intro n
  induction n with
  | zero => rfl
  | succ k ih =>
    rw [List.replicate_succ]
    simp [rfindSpace, ih]

theorem splitFuel_of_none (fuel : Nat) (l : Str) (h : findSentenceSep l = none) :
    splitSentencesFuel fuel l = [l] := by
  cases fuel with
  | zero => rfl
  | succ f => simp [splitSentencesFuel, h]

theorem createShortTTSVersion_def (text : Str) (mc ms : Nat) :
    createShortTTSVersion text mc ms =
      if text.isEmpty then []
      else if (cleanTextForTTS text).length ≤ mc then cleanTextForTTS text
      else shortFromCleaned (cleanTextForTTS text) mc ms := rfl

theorem shortFromCleaned_def (cleaned : Str) (mc ms : Nat) :
    shortFromCleaned cleaned mc ms =
      if (accumulateSentences mc []
            ((combineSentences (splitSentences cleaned)).take ms)).isEmpty
          || decide ((accumulateSentences mc []
            ((combineSentences (splitSentences cleaned)).take ms)).length < 100) then
        wordBoundaryCut cleaned mc
      else
        pyRstrip (accumulateSentences mc []
          ((combineSentences (splitSentences cleaned)).take ms)) := rfl

theorem wordBoundaryCut_def (cleaned : Str) (mc : Nat) :
    wordBoundaryCut cleaned mc =
      if 5 * (match rfindSpace (cleaned.take mc) with
              | none => (-1 : Int)
              | some i => (i : Int)) > 4 * (mc : Int) then
        (cleaned.take mc).take
            (match rfindSpace (cleaned.take mc) with
             | none => (-1 : Int)
             | some i => (i : Int)).toNat ++ ellipsis
      else cleaned.take mc ++ ellipsis := rfl

theorem short_replicate_a :
    createShortTTSVersion (List.replicate 1501 'a') 1500 5
      = List.replicate 1500 'a' ++ ellipsis := by
  have h1 : splitSentences (List.replicate 1501 'a') = [List.replicate 1501 'a'] :=
    splitFuel_of_none _ _ (findSentenceSepFuel_replicate_a _ _)
  rw [createShortTTSVersion_def, clean_replicate_a]
  rw [if_neg (by rw [show (1501 : Nat) = 1500 + 1 from rfl, List.replicate_succ]; simp)]
  rw [if_neg (by rw [List.length_replicate]; omega)]
  rw [shortFromCleaned_def, h1]
  rw [show combineSentences [List.replicate 1501 'a'] = ([] : List Str) from rfl]
  rw [show accumulateSentences 1500 [] (List.take 5 ([] : List Str)) = ([] : Str) from rfl]
  rw [if_pos (by decide)]
  rw [wordBoundaryCut_def, List.take_replicate,
    show (1500 ⊓ 1501 : Nat) = 1500 by norm_num, rfindSpace_replicate_a]
  rw [if_neg (by decide)]

/-- Counterexample to C7 as stated: the response of 1501 letters `a`
cleans to itself, exceeding the 1500-character budget configured at the
synthesis call site, yet the text handed to synthesis is 1503 characters
long — the word-boundary path appends a three-character ellipsis without
trimming back under the budget. -/
theorem tts_budget_cex :
    (cleanTextForTTS (List.replicate 1501 'a')).length = 1501
    ∧ (createShortTTSVersion (List.replicate 1501 'a') 1500 5).length = 1503 := by
  constructor
  · rw [clean_replicate_a, List.length_replicate]
  · rw [short_replicate_a, List.length_append, List.length_replicate]
    rfl


/-! ### Bounds and structure of the truncation -/

theorem ext_trans {p q r : Str} (h1 : ∃ t, p ++ t = q) (h2 : ∃ t, q ++ t = r) :
    ∃ t, p ++ t = r := by
  obtain ⟨t1, ht1⟩ := h1
  obtain ⟨t2, ht2⟩ := h2
  exact ⟨t1 ++ t2, by rw [← List.append_assoc, ht1, ht2]⟩

theorem take_ext {α : Type} (l : List α) (n : Nat) : ∃ t, l.take n ++ t = l :=
  ⟨l.drop n, List.take_append_drop n l⟩

theorem flatten_take_ext (parts : List Str) (k : Nat) :
    ∃ t, (parts.take k).flatten ++ t = parts.flatten :=
  ⟨(parts.drop k).flatten, by rw [← List.flatten_append, List.take_append_drop]⟩

theorem rstrip_ext (l : Str) : ∃ t, pyRstrip l ++ t = l :=
  ⟨(l.reverse.takeWhile isPySpace).reverse, by
    rw [pyRstrip, ← List.reverse_append, List.takeWhile_append_dropWhile,
      List.reverse_reverse]⟩

theorem ext_length_le {p q : Str} (h : ∃ t, p ++ t = q) : p.length ≤ q.length := by
  obtain ⟨t, ht⟩ := h
  rw [← ht, List.length_append]
  omega

theorem accumulate_le (mc : Nat) :
    ∀ (l : List Str) (acc : Str), acc.length ≤ mc →
      (accumulateSentences mc acc l).length ≤ mc := by
  intro l
  induction l with
  | nil => intro acc h; exact h
  | cons s rest ih =>
    intro acc h
    simp only [accumulateSentences]
    split
    · rename_i hc
      exact ih _ (by rw [List.length_append]; exact hc)
    · exact h

theorem accumulate_decomp (mc : Nat) :
    ∀ (l : List Str) (acc : Str),
      ∃ j, accumulateSentences mc acc l = acc ++ (l.take j).flatten := by
  intro l
  induction l with
  | nil => intro acc; exact ⟨0, by simp [accumulateSentences]⟩
  | cons s rest ih =>
    intro acc
    simp only [accumulateSentences]
    split
    · obtain ⟨j, hj⟩ := ih (acc ++ s)
      exact ⟨j + 1, by
        rw [hj, List.take_succ_cons, List.flatten_cons, List.append_assoc]⟩
    · exact ⟨0, by simp [accumulateSentences]⟩

theorem combine_flatten_ext :
    ∀ parts : List Str, ∃ t, (combineSentences parts).flatten ++ t = parts.flatten
  | [] => ⟨[], by simp [combineSentences]⟩
  | [x] => ⟨x, by simp [combineSentences]⟩
  | a :: b :: rest => by
    obtain ⟨t, ht⟩ := combine_flatten_ext rest
    refine ⟨t, ?_⟩
    simp only [combineSentences, List.flatten_cons, List.append_assoc]
    rw [ht]

theorem splitFuel_flatten :
    ∀ (fuel : Nat) (l : Str), (splitSentencesFuel fuel l).flatten = l := by
  intro fuel
  induction fuel with
  | zero => intro l; simp [splitSentencesFuel]
  | succ f ih =>
    intro l
    simp only [splitSentencesFuel]
    cases h : findSentenceSep l with
    | none => simp
    | some abw =>
      obtain ⟨a, b, w⟩ := abw
      simp only [List.flatten_cons, ih]
      rw [show a + b + w = a + (b + w) by omega, ← List.drop_drop,
        List.take_append_drop, List.take_append_drop]

theorem wordBoundaryCut_spec (cleaned : Str) (mc : Nat) :
    (wordBoundaryCut cleaned mc).length ≤ mc + 3
    ∧ ∃ p, (∃ t, p ++ t = cleaned) ∧ wordBoundaryCut cleaned mc = p ++ ellipsis := by
  have htr : (cleaned.take mc).length ≤ mc := by
    rw [List.length_take]; omega
  rw [wordBoundaryCut_def]
  split
  · refine ⟨?_, (cleaned.take mc).take
        (match rfindSpace (cleaned.take mc) with
         | none => (-1 : Int)
         | some i => (i : Int)).toNat,
      ext_trans (take_ext _ _) (take_ext _ _), rfl⟩
    rw [List.length_append]
    have : ((cleaned.take mc).take
        (match rfindSpace (cleaned.take mc) with
         | none => (-1 : Int)
         | some i => (i : Int)).toNat).length ≤ (cleaned.take mc).length :=
      ext_length_le (take_ext _ _)
    simp only [ellipsis]
    simp only [List.length_cons, List.length_nil]
    omega
  · refine ⟨?_, cleaned.take mc, take_ext _ _, rfl⟩
    rw [List.length_append]
    simp only [ellipsis, List.length_cons, List.length_nil]
    omega

theorem shortFromCleaned_spec (cleaned : Str) (mc ms : Nat) :
    (shortFromCleaned cleaned mc ms).length ≤ mc + 3
    ∧ ∃ p, (∃ t, p ++ t = cleaned)
        ∧ (shortFromCleaned cleaned mc ms = p
           ∨ shortFromCleaned cleaned mc ms = p ++ ellipsis) := by
  rw [shortFromCleaned_def]
  split
  · obtain ⟨hlen, p, hp, heq⟩ := wordBoundaryCut_spec cleaned mc
    exact ⟨hlen, p, hp, Or.inr heq⟩
  · have hres_pre : ∃ t,
        accumulateSentences mc []
            ((combineSentences (splitSentences cleaned)).take ms) ++ t = cleaned := by
      obtain ⟨j, hj⟩ := accumulate_decomp mc
        ((combineSentences (splitSentences cleaned)).take ms) []
      rw [hj, List.nil_append]
      refine ext_trans (flatten_take_ext _ _) ?_
      refine ext_trans (flatten_take_ext _ _) ?_
      refine ext_trans (combine_flatten_ext _) ?_
      exact ⟨[], by rw [List.append_nil]; exact splitFuel_flatten _ _⟩
    constructor
    · have h1 : (accumulateSentences mc []
          ((combineSentences (splitSentences cleaned)).take ms)).length ≤ mc :=
        accumulate_le mc _ [] (by simp)
      have h2 := ext_length_le (rstrip_ext (accumulateSentences mc []
          ((combineSentences (splitSentences cleaned)).take ms)))
      omega
    · exact ⟨pyRstrip (accumulateSentences mc []
          ((combineSentences (splitSentences cleaned)).take ms)),
        ext_trans (rstrip_ext _) hres_pre, Or.inl rfl⟩


/-- Claim C7, amended: When the cleaned response text exceeds the
character budget, the text handed to synthesis is a truncation of the
cleaned text — a prefix of it, either whole (the sentence path, after a
right strip) or with a three-character ellipsis appended (the
word-boundary path) — and its length never exceeds the budget plus the
three ellipsis characters.  The full untruncated text is what is sent in
the `agent_response` record and persisted to the Memory Store; synthesis
input length is governed by `createShortTTSVersion` inside
`generate_audio`. -/
theorem tts_truncation_policy :
    (∀ (text : Str) (mc ms : Nat), (cleanTextForTTS text).length > mc →
      (createShortTTSVersion text mc ms).length ≤ mc + 3
      ∧ ∃ p, (∃ t, p ++ t = cleanTextForTTS text)
          ∧ (createShortTTSVersion text mc ms = p
             ∨ createShortTTSVersion text mc ms = p ++ ellipsis))
    ∧ (∀ (s : SessionState) (u resp : Str) (env : TurnEnv),
        pyStrip u ≠ [] →
        taskActive s.currentAgentTask = false →
        taskActive s.currentTtsTask = false →
        s.interruptionEvent = false →
        env.run = TurnRun.reasonOk (some resp) PostReason.completed →
        OutMsg.agentResponse resp ∈ (processTranscription s u env).2.1
        ∧ MemOp.addAgent resp ∈ (processTranscription s u env).2.2
        ∧ (processTranscription s u env).2.1 =
            [OutMsg.transcription u, OutMsg.agentResponse resp, OutMsg.ttsStart]
              ++ (ttsYieldedChunks resp env.sourceChunks).map OutMsg.audioChunk
              ++ [OutMsg.ttsEnd]) := by
  constructor
  · intro text mc ms h
    rw [createShortTTSVersion_def] at *
    cases text with
    | nil => simp [cleanTextForTTS] at h
    | cons c cs =>
      rw [if_neg (by simp)]
      rw [if_neg (by omega)]
      exact shortFromCleaned_spec _ mc ms
  · intro s u resp env hu h1 h2 h3 h4
    have hpt := pt_completed s u (some resp) env hu h1 h2 h3 h4
    rw [hpt]
    simp

/-- Witness for C7 (amended): a 26-character plain text against a budget
of 10, and a concrete completed turn carrying the full response text. -/
theorem tts_truncation_policy_witness :
    ((createShortTTSVersion "abcdefghijklmnopqrstuvwxyz".data 10 5).length ≤ 10 + 3
      ∧ ∃ p, (∃ t, p ++ t = cleanTextForTTS "abcdefghijklmnopqrstuvwxyz".data)
          ∧ (createShortTTSVersion "abcdefghijklmnopqrstuvwxyz".data 10 5 = p
             ∨ createShortTTSVersion "abcdefghijklmnopqrstuvwxyz".data 10 5
                = p ++ ellipsis))
    ∧ (OutMsg.agentResponse "Sure.".data
        ∈ (processTranscription ⟨none, none, false, 0, 0⟩ "hello".data
            ⟨1000, TurnRun.reasonOk (some "Sure.".data) PostReason.completed,
             [[9]], []⟩).2.1
      ∧ MemOp.addAgent "Sure.".data
          ∈ (processTranscription ⟨none, none, false, 0, 0⟩ "hello".data
              ⟨1000, TurnRun.reasonOk (some "Sure.".data) PostReason.completed,
               [[9]], []⟩).2.2
      ∧ (processTranscription ⟨none, none, false, 0, 0⟩ "hello".data
            ⟨1000, TurnRun.reasonOk (some "Sure.".data) PostReason.completed,
             [[9]], []⟩).2.1 =
          [OutMsg.transcription "hello".data, OutMsg.agentResponse "Sure.".data,
           OutMsg.ttsStart]
            ++ (ttsYieldedChunks "Sure.".data [[9]]).map OutMsg.audioChunk
            ++ [OutMsg.ttsEnd]) :=
  ⟨tts_truncation_policy.1 "abcdefghijklmnopqrstuvwxyz".data 10 5 (by decide),
   tts_truncation_policy.2 ⟨none, none, false, 0, 0⟩ "hello".data "Sure.".data
     ⟨1000, TurnRun.reasonOk (some "Sure.".data) PostReason.completed, [[9]], []⟩
     (by decide) rfl rfl rfl rfl⟩

end Serena
